import Mathlib

/-!
Shallow embedding of the ConverterPIX wrapper Blender add-on
(file `io_converter_pix_wrapper/__init__.py`).

The add-on wraps an external command-line converter: it builds argument
lists, runs the converter as a subprocess, parses its line-oriented stdout
into directory/file listings, lets the user browse archives, and finally
distributes the converted files into destination folders by extension.

The embedding models the platform as linux (so `LINE_SPLITTER` is a single
newline and the `os.path` functions are the posix ones).  Subprocess
execution is modelled by an oracle mapping an argument list to the observed
`subprocess.run` result (return code plus decoded stdout); the process
working directory (used by `os.path.abspath` on relative inputs) is an
explicit `cwd` parameter.  Python exceptions (`ValueError` from
`os.path.relpath("")`, `IndexError` from out-of-range collection access)
are modelled by `Option`.
-/

namespace ConvPIXWrapper

/-- Python slice `s[n:]` on strings. -/
def strDrop (s : String) (n : Nat) : String := String.mk (s.data.drop n)

/-- Python slice `s[:-n]` on strings (empty when the string has at most `n`
characters). -/
def strDropLast (s : String) (n : Nat) : String :=
  String.mk (s.data.take (s.data.length - n))

/-- Python `s.startswith(p)`. -/
def startswith (s p : String) : Bool := p.data.isPrefixOf s.data

/-- Python `s.endswith(p)`. -/
def endswith (s p : String) : Bool := p.data.isSuffixOf s.data

/-- Splits a character list at every occurrence of `sep`, keeping empty
parts, exactly as Python `str.split` with a one-character separator. -/
def splitChar (sep : Char) : List Char → List (List Char)
  | [] => [[]]
  | c :: cs =>
    match splitChar sep cs with
    | [] => [[]]
    | p :: ps => if c = sep then [] :: p :: ps else (c :: p) :: ps

/-- Python `s.split(sep)` for a one-character separator. -/
def pySplit (sep : Char) (s : String) : List String :=
  (splitChar sep s.data).map String.mk

/-- Python substring containment `pat in s`, on character lists. -/
def listContainsSub (pat : List Char) : List Char → Bool
  | [] => pat.isEmpty
  | c :: cs => pat.isPrefixOf (c :: cs) || listContainsSub pat cs

/-- Python `pat in s` for strings. -/
def containsSub (s pat : String) : Bool := listContainsSub pat.data s.data

/-- `LINE_SPLITTER` for the linux platform branch: the string `"\n"`,
modelled as its single character. -/
def LINE_SPLITTER : Char := '\n'

/-- Result of `subprocess.run(final_command, stdout=subprocess.PIPE)`:
the return code and the captured stdout, already utf-8 decoded.  (The
`<error>` marker is pure ASCII, so byte-level containment used by the
source coincides with character-level containment.) -/
structure SubprocResult where
  returncode : Int
  stdout : String
  deriving DecidableEq, Repr

/-- Embeds `run_converter_pix` (lines 92-125): given the subprocess result,
return a non-zero code with an empty line list when the subprocess return
code is non-zero; return `-1` with the split stdout when the literal
`<error>` occurs in stdout; otherwise return code `0` with the split
stdout. -/
def run_converter_pix (result : SubprocResult) : Int × List String :=
  if result.returncode ≠ 0 then
    (result.returncode, [])
  else if containsSub result.stdout "<error>" then
    (-1, pySplit LINE_SPLITTER result.stdout)
  else
    (result.returncode, pySplit LINE_SPLITTER result.stdout)

/-- C3: `run_converter_pix` returns a non-zero code exactly when the
subprocess return code is non-zero or the literal `<error>` occurs in the
subprocess stdout; and a zero subprocess return code with `<error>` in the
output yields the code `-1`. -/
theorem run_converter_pix_fails_iff (r : SubprocResult) :
    ((run_converter_pix r).1 ≠ 0 ↔
      (r.returncode ≠ 0 ∨ containsSub r.stdout "<error>" = true)) ∧
    (r.returncode = 0 → containsSub r.stdout "<error>" = true →
      (run_converter_pix r).1 = -1) := by
  unfold run_converter_pix
  by_cases h : r.returncode = 0 <;>
    by_cases h2 : containsSub r.stdout "<error>" = true <;>
      simp [h, h2]

/-- Witness for C3 at a concrete input: a zero return code with `<error>`
in the stdout yields the code `-1`. -/
theorem run_converter_pix_fails_iff_witness :
    (run_converter_pix ⟨0, "a<error>b"⟩).1 = -1 :=
  (run_converter_pix_fails_iff ⟨0, "a<error>b"⟩).2 rfl (by decide)

/-! ### posixpath model

The add-on calls `os.path.join`, `os.path.normpath` (via `abspath`),
`os.path.relpath` and `os.path.dirname`.  On the modelled linux platform
these are the `posixpath` functions, embedded below from CPython.
-/

/-- `posixpath.isabs`. -/
def isabs (p : String) : Bool := startswith p "/"

/-- One step of `posixpath.join`: `join(a, b)`. -/
def join2 (a b : String) : String :=
  if startswith b "/" then b
  else if a = "" ∨ endswith a "/" then a ++ b
  else a ++ "/" ++ b

/-- `posixpath.join(x1, x2, ...)` on a non-empty list of components. -/
def joinList : List String → String
  | [] => ""
  | a :: rest => rest.foldl join2 a

/-- Python `s.replace("\\", "/")`: a one-character pattern replace is a
character map. -/
def replaceBackslashes (s : String) : String :=
  String.mk (s.data.map fun c => if c = '\\' then '/' else c)

/-- Embeds `path_join` (lines 45-49): `os.path.join` followed by replacing
backslashes with forward slashes. -/
def path_join (path1 path2 : String) : String :=
  replaceBackslashes (join2 path1 path2)

/-- `posixpath.normpath`. -/
def normpath (path : String) : String :=
  if path = "" then "."
  else
    let initialSlashes : Nat :=
      if startswith path "/" then
        if startswith path "//" ∧ ¬ startswith path "///" then 2 else 1
      else 0
    let comps := pySplit '/' path
    let newComps := comps.foldl
      (fun acc comp =>
        if comp = "" ∨ comp = "." then acc
        else if comp ≠ ".." ∨ (initialSlashes = 0 ∧ acc = []) ∨
            acc.getLast? = some ".." then
          acc ++ [comp]
        else if acc ≠ [] then acc.dropLast
        else acc)
      []
    let res := String.mk (List.replicate initialSlashes '/') ++
      String.intercalate "/" newComps
    if res = "" then "." else res

/-- `posixpath.abspath`; the process working directory `cwd` (used only
when `path` is relative) is an explicit parameter. -/
def abspath (cwd path : String) : String :=
  if isabs path then normpath path else normpath (join2 cwd path)

/-- Length of the longest common prefix of two component lists, as
`len(posixpath.commonprefix([a, b]))` on lists. -/
def commonLen : List String → List String → Nat
  | a :: as, b :: bs => if a = b then commonLen as bs + 1 else 0
  | _, _ => 0

/-- Body of `posixpath.relpath(path, start)` past the empty-path check. -/
def relpathCore (cwd path start : String) : String :=
  let startList := (pySplit '/' (abspath cwd start)).filter (· ≠ "")
  let pathList := (pySplit '/' (abspath cwd path)).filter (· ≠ "")
  let i := commonLen startList pathList
  let relList := List.replicate (startList.length - i) ".." ++ pathList.drop i
  if relList = [] then "." else joinList relList

/-- `posixpath.relpath(path, start)`: raises `ValueError` (modelled as
`none`) on an empty `path`. -/
def relpath (cwd path start : String) : Option String :=
  if path = "" then none else some (relpathCore cwd path start)

/-- Position one past the last occurrence of `c`, as Python
`p.rfind(c) + 1` (`0` when `c` does not occur). -/
def rfindPlusOne (c : Char) : List Char → Nat
  | [] => 0
  | x :: xs =>
    match rfindPlusOne c xs with
    | 0 => if x = c then 1 else 0
    | n + 1 => n + 2

/-- Python `s.rstrip(c)` for a one-character strip set, on lists. -/
def rstripChar (c : Char) (l : List Char) : List Char :=
  (l.reverse.dropWhile (· = c)).reverse

/-- `posixpath.dirname` on character lists. -/
def dirnameList (l : List Char) : List Char :=
  let head := l.take (rfindPlusOne '/' l)
  if head ≠ [] ∧ ¬ head.all (· = '/') then rstripChar '/' head else head

/-- `posixpath.dirname`. -/
def dirname (p : String) : String := String.mk (dirnameList p.data)

/-! ### Python string comparison and `sorted`

Python compares strings lexicographically by code point; `sorted` returns
the ascending reordering.  `listLt` embeds `<` on code-point lists and the
sort is an insertion sort with the reflexive relation `pyle`, which is
extensionally Python `<=` on strings.
-/

/-- Python `<` on strings, as code-point lists. -/
def listLt : List Char → List Char → Bool
  | [], [] => false
  | [], _ :: _ => true
  | _ :: _, [] => false
  | a :: as, b :: bs =>
    if a.toNat = b.toNat then listLt as bs else decide (a.toNat < b.toNat)

/-- Python `a <= b` on strings (equivalently `not (b < a)` for this total
order), as a relation usable with `List.Sorted`. -/
def pyle (a b : String) : Prop := listLt b.data a.data = false

instance : DecidableRel pyle := fun a b => by
  unfold pyle; infer_instance

/-- `listLt` is asymmetric. -/
theorem listLt_asymm : ∀ x y : List Char, listLt x y = true → listLt y x = false
  | [], [] => by simp [listLt]
  | [], _ :: _ => by simp [listLt]
  | _ :: _, [] => by simp [listLt]
  | a :: as, b :: bs => by
    simp only [listLt]
    by_cases h : a.toNat = b.toNat
    · rw [if_pos h, if_pos h.symm]
      exact listLt_asymm as bs
    · rw [if_neg h, if_neg (fun e => h e.symm)]
      simp only [decide_eq_true_eq, decide_eq_false_iff_not]
      exact Nat.lt_asymm

/-- `listLt` satisfies the comparison dichotomy needed for transitivity of
`pyle`: if `x < z` then for any `y`, `x < y` or `y < z`. -/
theorem listLt_dichotomy : ∀ x z : List Char, listLt x z = true →
    ∀ y : List Char, listLt x y = true ∨ listLt y z = true
  | [], [] => by simp [listLt]
  | [], _ :: _ => fun _ y => by
    cases y with
    | nil => right; simp [listLt]
    | cons v vs => left; simp [listLt]
  | _ :: _, [] => by simp [listLt]
  | a :: as, c :: cs => fun hxz y => by
    cases y with
    | nil => right; simp [listLt]
    | cons b bs =>
      simp only [listLt] at hxz ⊢
      by_cases hab : a.toNat = b.toNat
      · by_cases hbc : b.toNat = c.toNat
        · have hac : a.toNat = c.toNat := hab.trans hbc
          rw [if_pos hac] at hxz
          rcases listLt_dichotomy as cs hxz bs with h | h
          · exact Or.inl (by rw [if_pos hab]; exact h)
          · exact Or.inr (by rw [if_pos hbc]; exact h)
        · have hac : ¬ a.toNat = c.toNat := fun e => hbc (hab.symm.trans e)
          rw [if_neg hac, decide_eq_true_eq] at hxz
          right
          rw [if_neg hbc, decide_eq_true_eq, ← hab]
          exact hxz
      · by_cases h1 : a.toNat < b.toNat
        · exact Or.inl (by rw [if_neg hab, decide_eq_true_eq]; exact h1)
        · have hba : b.toNat < a.toNat :=
            Nat.lt_of_le_of_ne (Nat.le_of_not_lt h1) (fun e => hab e.symm)
          right
          by_cases hac : a.toNat = c.toNat
          · have hbc : ¬ b.toNat = c.toNat := fun e => hab ((e.trans hac.symm)).symm
            rw [if_neg hbc, decide_eq_true_eq, ← hac]
            exact hba
          · rw [if_neg hac, decide_eq_true_eq] at hxz
            have hbc : b.toNat < c.toNat := Nat.lt_trans hba hxz
            rw [if_neg (Nat.ne_of_lt hbc), decide_eq_true_eq]
            exact hbc

instance : IsTotal String pyle := by
  constructor
  intro a b
  unfold pyle
  by_cases h : listLt b.data a.data = true
  · exact Or.inr (listLt_asymm _ _ h)
  · exact Or.inl (Bool.eq_false_iff.mpr h)

instance : IsTrans String pyle := by
  constructor
  intro a b c hab hbc
  unfold pyle at *
  by_cases h : listLt c.data a.data = true
  · rcases listLt_dichotomy _ _ h b.data with h2 | h2
    · rw [hbc] at h2; exact absurd h2 (by simp)
    · rw [hab] at h2; exact absurd h2 (by simp)
  · exact Bool.eq_false_iff.mpr h

/-- Python `sorted` on a list of strings: the ascending stable reordering,
realised as insertion sort over `pyle`. -/
def pySorted (l : List String) : List String := l.insertionSort pyle

/-- `pySorted` is a permutation of its input. -/
theorem perm_pySorted (l : List String) : (pySorted l).Perm l :=
  List.perm_insertionSort pyle l

/-! ### Archive directory listing -/

/-- The argument list built by `get_archive_listdir` (lines 139-144): a
`["-b", file_path]` pair per base archive, then `["-listdir", subpath]`. -/
def get_archive_listdir_args (file_paths : List String)
    (current_subpath : String) : List String :=
  (file_paths.foldl (fun args file_path => args ++ ["-b", file_path]) []) ++
    ["-listdir", current_subpath]

/-- The stdout-classification loop of `get_archive_listdir`
(lines 147-158): lines starting with `"[D] "` become directories, lines
starting with `"[F] "` become files, each taken past the 4-character
prefix and relativized with `os.path.relpath` against the current subpath;
every other line is ignored.  `none` models the `ValueError` that
`os.path.relpath` raises on an empty path. -/
def classify_listing (cwd current_subpath : String) :
    List String → Option (List String × List String)
  | [] => some ([], [])
  | line :: rest =>
    if startswith line "[D] " then
      match relpath cwd (strDrop line 4) current_subpath,
          classify_listing cwd current_subpath rest with
      | some d, some (ds, fs) => some (d :: ds, fs)
      | _, _ => none
    else if startswith line "[F] " then
      match relpath cwd (strDrop line 4) current_subpath,
          classify_listing cwd current_subpath rest with
      | some f, some (ds, fs) => some (ds, f :: fs)
      | _, _ => none
    else classify_listing cwd current_subpath rest

/-- Embeds `get_archive_listdir` (lines 128-159).  The subprocess is the
oracle `run` from argument lists to observed results.  Note the
classification loop runs over whatever `run_converter_pix` returned even
when its code is non-zero (the source only prints a message then). -/
def get_archive_listdir (run : List String → SubprocResult) (cwd : String)
    (file_paths : List String) (current_subpath : String) :
    Option (List String × List String) :=
  match classify_listing cwd current_subpath
      (run_converter_pix
        (run (get_archive_listdir_args file_paths current_subpath))).2 with
  | none => none
  | some (ds, fs) => some (pySorted ds, pySorted fs)

/-- The conversion argument list built by
`CONV_PIX_WRAPPER_OT_ListImport.execute` (lines 424-431): `["-b", path]`
pairs, then `["-m", model subpath without its last 4 characters]`, then
the selected animation subpaths, then `["-e", export dir]`. -/
def conversion_args (archive_paths : List String)
    (model_archive_subpath : String) (anim_archive_subpaths : List String)
    (export_path : String) : List String :=
  (archive_paths.foldl (fun args p => args ++ ["-b", p]) []) ++
    ["-m", strDropLast model_archive_subpath 4] ++
    anim_archive_subpaths ++ ["-e", export_path]

theorem foldl_bpair_eq (l : List String) (init : List String) :
    l.foldl (fun args p => args ++ ["-b", p]) init =
      init ++ (l.map (fun p => ["-b", p])).flatten := by
  induction l generalizing init with
  | nil => simp
  | cons a t ih => simp [List.foldl_cons, ih, List.append_assoc]

/-- C4: structure of the converter argument lists: a `["-b", archive]`
pair per archive in order, followed by `["-listdir", subpath]` for a
listing, and by `["-m", model subpath with its last 4 characters removed]`,
the selected animation subpaths and `["-e", export dir]` for a
conversion. -/
theorem converter_args_structure (file_paths : List String) (cur : String)
    (aps : List String) (m : String) (anims : List String) (e : String) :
    get_archive_listdir_args file_paths cur =
      (file_paths.map (fun p => ["-b", p])).flatten ++ ["-listdir", cur] ∧
    conversion_args aps m anims e =
      (aps.map (fun p => ["-b", p])).flatten ++ ["-m", strDropLast m 4] ++
        anims ++ ["-e", e] := by
  constructor
  · unfold get_archive_listdir_args
    rw [foldl_bpair_eq, List.nil_append]
  · unfold conversion_args
    rw [foldl_bpair_eq, List.nil_append]

/-- A line starting with `"[D] "` does not start with `"[F] "`. -/
theorem startswith_D_not_F (l : String) (h : startswith l "[D] " = true) :
    startswith l "[F] " = false := by
  unfold startswith at h ⊢
  rw [List.isPrefixOf_iff_prefix] at h
  rw [Bool.eq_false_iff, Ne, List.isPrefixOf_iff_prefix]
  intro hf
  have hp : "[D] ".data <+: "[F] ".data :=
    List.prefix_of_prefix_length_le h hf (by decide)
  have h2 := hp.eq_of_length (by decide)
  exact absurd h2 (by decide)

/-- When every prefixed line keeps a non-empty path after the prefix, the
classification loop returns exactly the relativized `[D] ` lines as
directories and the relativized `[F] ` lines as files. -/
theorem classify_listing_eq (cwd cur : String) (lines : List String)
    (h : ∀ line ∈ lines,
      (startswith line "[D] " = true ∨ startswith line "[F] " = true) →
        strDrop line 4 ≠ "") :
    classify_listing cwd cur lines = some
      ((lines.filter (fun l => startswith l "[D] ")).map
          (fun l => relpathCore cwd (strDrop l 4) cur),
        (lines.filter (fun l => startswith l "[F] ")).map
          (fun l => relpathCore cwd (strDrop l 4) cur)) := by
  induction lines with
  | nil => rfl
  | cons line rest ih =>
    have hrest : ∀ l ∈ rest,
        (startswith l "[D] " = true ∨ startswith l "[F] " = true) →
          strDrop l 4 ≠ "" :=
      fun l hl => h l (List.mem_cons_of_mem line hl)
    by_cases hD : startswith line "[D] " = true
    · have hne := h line (List.mem_cons_self line rest) (Or.inl hD)
      simp only [classify_listing, hD, if_pos, relpath, if_neg hne, ih hrest,
        List.filter_cons, startswith_D_not_F line hD, List.map_cons,
        Bool.false_eq_true, ite_false, ite_true]
    · by_cases hF : startswith line "[F] " = true
      · have hne := h line (List.mem_cons_self line rest) (Or.inr hF)
        simp only [classify_listing, hD, hF, if_pos, relpath, if_neg hne,
          ih hrest, List.filter_cons, List.map_cons, Bool.false_eq_true,
          ite_false, ite_true]
      · simp only [classify_listing, hD, hF, ih hrest, List.filter_cons,
          Bool.false_eq_true, ite_false]

/-- C2: for every converter stdout whose prefixed lines carry a non-empty
path, `get_archive_listdir` returns exactly the `"[D] "` lines (past the
4-character prefix, relativized against the current subpath) as
directories and exactly the `"[F] "` lines as files, ignoring every other
line. -/
theorem get_archive_listdir_classifies (run : List String → SubprocResult)
    (cwd : String) (file_paths : List String) (cur : String)
    (h : ∀ line ∈
        (run_converter_pix (run (get_archive_listdir_args file_paths cur))).2,
      (startswith line "[D] " = true ∨ startswith line "[F] " = true) →
        strDrop line 4 ≠ "") :
    ∃ ds fs, get_archive_listdir run cwd file_paths cur = some (ds, fs) ∧
      ds.Perm
        (((run_converter_pix (run (get_archive_listdir_args file_paths cur))).2.filter
            (fun l => startswith l "[D] ")).map
          (fun l => relpathCore cwd (strDrop l 4) cur)) ∧
      fs.Perm
        (((run_converter_pix (run (get_archive_listdir_args file_paths cur))).2.filter
            (fun l => startswith l "[F] ")).map
          (fun l => relpathCore cwd (strDrop l 4) cur)) := by
  refine ⟨_, _, ?_, perm_pySorted _, perm_pySorted _⟩
  unfold get_archive_listdir
  rw [classify_listing_eq cwd cur _ h]

/-- Witness for C2 at a concrete stdout with a directory line, a file line
and a noise line. -/
theorem get_archive_listdir_classifies_witness :
    ∃ ds fs,
      get_archive_listdir
        (fun _ => ⟨0, "[D] /vehicle\n[F] /m.pmg\nnoise"⟩) "/cwd" ["a.scs"] "/" =
        some (ds, fs) ∧
      ds.Perm
        (((run_converter_pix
              ((fun _ => (⟨0, "[D] /vehicle\n[F] /m.pmg\nnoise"⟩ : SubprocResult))
                (get_archive_listdir_args ["a.scs"] "/"))).2.filter
            (fun l => startswith l "[D] ")).map
          (fun l => relpathCore "/cwd" (strDrop l 4) "/")) ∧
      fs.Perm
        (((run_converter_pix
              ((fun _ => (⟨0, "[D] /vehicle\n[F] /m.pmg\nnoise"⟩ : SubprocResult))
                (get_archive_listdir_args ["a.scs"] "/"))).2.filter
            (fun l => startswith l "[F] ")).map
          (fun l => relpathCore "/cwd" (strDrop l 4) "/")) :=
  get_archive_listdir_classifies
    (fun _ => ⟨0, "[D] /vehicle\n[F] /m.pmg\nnoise"⟩) "/cwd" ["a.scs"] "/"
    (by decide)

/-- C8: both lists returned by `get_archive_listdir` are sorted in
ascending Python string order, whatever order the converter printed the
lines in. -/
theorem get_archive_listdir_sorted (run : List String → SubprocResult)
    (cwd : String) (file_paths : List String) (cur : String)
    (ds fs : List String)
    (h : get_archive_listdir run cwd file_paths cur = some (ds, fs)) :
    List.Sorted pyle ds ∧ List.Sorted pyle fs := by
  simp only [get_archive_listdir] at h
  cases hc : classify_listing cwd cur
      (run_converter_pix (run (get_archive_listdir_args file_paths cur))).2 with
  | none =>
    rw [hc] at h
    exact absurd h (by simp)
  | some p =>
    obtain ⟨a, b⟩ := p
    rw [hc] at h
    simp only [Option.some.injEq, Prod.mk.injEq] at h
    obtain ⟨h1, h2⟩ := h
    rw [← h1, ← h2]
    exact ⟨List.sorted_insertionSort pyle a, List.sorted_insertionSort pyle b⟩

/-! ### Browser data and navigation -/

/-- `ConvPIXWrapperFileEntry` (lines 174-179): one browser entry.  All
three properties default to the falsy Blender defaults. -/
structure FileEntry where
  do_import : Bool := false
  name : String := ""
  is_dir : Bool := false
  deriving DecidableEq, Repr

/-- `ConvPIXWrapperBrowserData` (lines 182-285): browser state.  The
defaults mirror the property defaults of the source. -/
structure BrowserData where
  multi_select : Bool := false
  file_extension : String := "*"
  archive_paths : List String := []
  current_subpath : String := "/"
  file_entries : List FileEntry := []
  active_entry : Int := -1
  deriving DecidableEq, Repr

/-- The entry-list rebuild of `update_active_entry` (lines 230-255): clear
the list, add the parent entry `".."` (a directory), then every listed
directory, then only the listed files matching the configured extension
(all files when the extension is `"*"`). -/
def rebuild_file_entries (file_extension : String) (dirs files : List String) :
    List FileEntry :=
  ⟨false, "..", true⟩ ::
    ((dirs.map fun d => (⟨false, d, true⟩ : FileEntry)) ++
      ((files.filter fun f =>
          endswith f file_extension || file_extension = "*").map
        fun f => (⟨false, f, false⟩ : FileEntry)))

/-- The rebuild tail of `update_active_entry`: fetch the listing for the
current subpath and install the rebuilt entry list. -/
def rebuild_browser (run : List String → SubprocResult) (cwd : String)
    (bd : BrowserData) : Option BrowserData :=
  match get_archive_listdir run cwd bd.archive_paths bd.current_subpath with
  | none => none
  | some (dirs, files) =>
    some { bd with file_entries := rebuild_file_entries bd.file_extension dirs files }

/-- Embeds `ConvPIXWrapperBrowserData.update_active_entry`
(lines 199-255) as one callback invocation.  Selecting a directory moves
`current_subpath` and resets `active_entry` to `-1` (which re-triggers the
callback in Blender and then rebuilds the list); selecting a file is a
no-op; otherwise the entry list is rebuilt from the archive listing. -/
def update_active_entry (run : List String → SubprocResult) (cwd : String)
    (bd : BrowserData) : Option BrowserData :=
  if 0 ≤ bd.active_entry ∧ bd.active_entry < (bd.file_entries.length : Int) then
    match bd.file_entries.get? bd.active_entry.toNat with
    | none => none
    | some active_file_entry =>
      if active_file_entry.is_dir then
        if active_file_entry.name = ".." then
          if bd.current_subpath ≠ "/" then
            some { bd with current_subpath := dirname bd.current_subpath,
                           active_entry := -1 }
          else
            some { bd with active_entry := -1 }
        else
          some { bd with
            current_subpath := path_join bd.current_subpath active_file_entry.name,
            active_entry := -1 }
      else if active_file_entry.name ≠ ".." then
        some bd
      else
        rebuild_browser run cwd bd
  else
    rebuild_browser run cwd bd

/-! Leading-slash preservation lemmas for C10. -/

theorem startswith_slash_iff (s : String) :
    startswith s "/" = true ↔ s.data.head? = some '/' := by
  unfold startswith
  have hlit : "/".data = ['/'] := rfl
  rw [hlit]
  cases s.data with
  | nil => simp [List.isPrefixOf]
  | cons c t =>
    simp [List.isPrefixOf]
    exact eq_comm

theorem startswith_append_slash (a b : String)
    (h : startswith a "/" = true) : startswith (a ++ b) "/" = true := by
  rw [startswith_slash_iff] at h ⊢
  rw [String.data_append]
  cases hd : a.data with
  | nil => rw [hd] at h; exact absurd h (by simp)
  | cons c t => rw [hd] at h; simp at h; simp [h]

theorem startswith_replaceBackslashes (s : String)
    (h : startswith s "/" = true) :
    startswith (replaceBackslashes s) "/" = true := by
  rw [startswith_slash_iff] at h ⊢
  unfold replaceBackslashes
  cases hd : s.data with
  | nil => rw [hd] at h; exact absurd h (by simp)
  | cons c t =>
    rw [hd] at h
    simp only [Option.some.injEq, List.head?_cons] at h
    simp [hd, h]

theorem startswith_path_join (a b : String) (h : startswith a "/" = true) :
    startswith (path_join a b) "/" = true := by
  unfold path_join
  apply startswith_replaceBackslashes
  unfold join2
  by_cases hb : startswith b "/" = true
  · rw [if_pos hb]; exact hb
  · rw [if_neg (by simp [hb])]
    by_cases h2 : a = "" ∨ endswith a "/"
    · rw [if_pos h2]; exact startswith_append_slash a b h
    · rw [if_neg h2]
      exact startswith_append_slash (a ++ "/") b (startswith_append_slash a "/" h)

theorem rfindPlusOne_pos_of_head (c : Char) (t : List Char) :
    0 < rfindPlusOne c (c :: t) := by
  unfold rfindPlusOne
  cases rfindPlusOne c t with
  | zero => simp
  | succ n => simp

theorem rstripChar_prefix (c : Char) (l : List Char) :
    (rstripChar c l).IsPrefix l := by
  have h := l.reverse.dropWhile_suffix fun x => decide (x = c)
  have h2 := List.reverse_prefix.mpr h
  rw [List.reverse_reverse] at h2
  exact h2

theorem rstripChar_ne_nil (c : Char) (l : List Char)
    (h : ¬ l.all (fun x => decide (x = c)) = true) : rstripChar c l ≠ [] := by
  intro he
  apply h
  unfold rstripChar at he
  have h2 : l.reverse.dropWhile (fun x => decide (x = c)) = [] := by
    cases hk : l.reverse.dropWhile (fun x => decide (x = c)) with
    | nil => rfl
    | cons y ys => rw [hk] at he; simp at he
  rw [List.dropWhile_eq_nil_iff] at h2
  rw [List.all_eq_true]
  intro x hx
  simpa using h2 x (List.mem_reverse.mpr hx)

theorem head?_of_prefix_ne_nil {r l : List Char} (h : r.IsPrefix l)
    (hne : r ≠ []) : l.head? = r.head? := by
  obtain ⟨t, rfl⟩ := h
  cases r with
  | nil => exact absurd rfl hne
  | cons x xs => simp

theorem dirname_startswith (p : String) (h : startswith p "/" = true) :
    startswith (dirname p) "/" = true := by
  rw [startswith_slash_iff] at h ⊢
  unfold dirname dirnameList
  cases hd : p.data with
  | nil => rw [hd] at h; exact absurd h (by simp)
  | cons c t =>
    rw [hd] at h
    simp only [List.head?_cons, Option.some.injEq] at h
    subst h
    have hpos := rfindPlusOne_pos_of_head '/' t
    have htake : ((('/' : Char) :: t).take (rfindPlusOne '/' ('/' :: t))).head? =
        some '/' := by
      cases hr : rfindPlusOne '/' ('/' :: t) with
      | zero => rw [hr] at hpos; exact absurd hpos (by simp)
      | succ n => simp
    set head := (('/' : Char) :: t).take (rfindPlusOne '/' ('/' :: t))
    by_cases hcond : head ≠ [] ∧ ¬ head.all (fun x => decide (x = '/')) = true
    · rw [if_pos hcond]
      have hne := rstripChar_ne_nil '/' head hcond.2
      have hpre := rstripChar_prefix '/' head
      have h3 := head?_of_prefix_ne_nil hpre hne
      show (rstripChar '/' head).head? = some '/'
      rw [← h3]
      exact htake
    · rw [if_neg hcond]
      exact htake

/-- C10: browser navigation never ascends above the archive root.  For
any state whose subpath starts with `/`, selecting a directory entry
yields a subpath that still starts with `/`; and selecting the parent
entry `".."` at the root subpath `/` leaves the subpath unchanged. -/
theorem update_active_entry_never_ascends (run : List String → SubprocResult)
    (cwd : String) (bd : BrowserData)
    (h0 : 0 ≤ bd.active_entry)
    (h1 : bd.active_entry < (bd.file_entries.length : Int))
    (e : FileEntry)
    (he : bd.file_entries.get? bd.active_entry.toNat = some e)
    (hdir : e.is_dir = true)
    (hcur : startswith bd.current_subpath "/" = true) :
    ∃ bd', update_active_entry run cwd bd = some bd' ∧
      startswith bd'.current_subpath "/" = true ∧
      (bd.current_subpath = "/" → e.name = ".." → bd'.current_subpath = "/") := by
  unfold update_active_entry
  rw [if_pos ⟨h0, h1⟩, he]
  simp only [hdir, if_true]
  by_cases hn : e.name = ".."
  · rw [if_pos hn]
    by_cases hc : bd.current_subpath = "/"
    · rw [if_neg fun hne => hne hc]
      exact ⟨_, rfl, hcur, fun _ _ => hc⟩
    · rw [if_pos hc]
      exact ⟨_, rfl, dirname_startswith _ hcur, fun h2 _ => absurd h2 hc⟩
  · rw [if_neg hn]
    exact ⟨_, rfl, startswith_path_join _ _ hcur, fun _ h2 => absurd h2 hn⟩

/-- Witness for C10: selecting the directory entry `vehicle` at the root
subpath yields the subpath `/vehicle`, which still starts with `/`. -/
theorem update_active_entry_never_ascends_witness :
    ∃ bd', update_active_entry (fun _ => ⟨0, ""⟩) "/cwd"
        { file_entries := [⟨false, "vehicle", true⟩], active_entry := 0 } =
        some bd' ∧
      startswith bd'.current_subpath "/" = true ∧
      (({ file_entries := [⟨false, "vehicle", true⟩], active_entry := 0 } :
          BrowserData).current_subpath = "/" →
        (⟨false, "vehicle", true⟩ : FileEntry).name = ".." →
        bd'.current_subpath = "/") :=
  update_active_entry_never_ascends (fun _ => ⟨0, ""⟩) "/cwd"
    { file_entries := [⟨false, "vehicle", true⟩], active_entry := 0 }
    (by decide) (by decide) ⟨false, "vehicle", true⟩ (by decide) rfl (by decide)

/-- Unfolding of a successful rebuild. -/
theorem rebuild_browser_spec (run : List String → SubprocResult)
    (cwd : String) (bd bd' : BrowserData)
    (h : rebuild_browser run cwd bd = some bd') :
    ∃ dirs files,
      get_archive_listdir run cwd bd.archive_paths bd.current_subpath =
        some (dirs, files) ∧
      bd'.file_entries = rebuild_file_entries bd.file_extension dirs files := by
  unfold rebuild_browser at h
  cases hc : get_archive_listdir run cwd bd.archive_paths bd.current_subpath with
  | none => rw [hc] at h; exact absurd h (by simp)
  | some p =>
    obtain ⟨dirs, files⟩ := p
    rw [hc] at h
    simp only [Option.some.injEq] at h
    exact ⟨dirs, files, rfl, by rw [← h]⟩

/-- C9: whenever `update_active_entry` rebuilds the entry list (no valid
selection, or a selected non-directory named `".."`), the resulting list
is non-empty, its first entry is the parent entry `".."` marked as a
directory, and it continues with all listed directories followed by
exactly the listed files whose names end with the configured extension
(all files when the extension is `"*"`). -/
theorem update_active_entry_rebuild_shape (run : List String → SubprocResult)
    (cwd : String) (bd bd' : BrowserData)
    (htrig : ¬ (0 ≤ bd.active_entry ∧
        bd.active_entry < (bd.file_entries.length : Int)) ∨
      ∃ e, bd.file_entries.get? bd.active_entry.toNat = some e ∧
        (0 ≤ bd.active_entry ∧
          bd.active_entry < (bd.file_entries.length : Int)) ∧
        e.is_dir = false ∧ e.name = "..")
    (h : update_active_entry run cwd bd = some bd') :
    bd'.file_entries ≠ [] ∧
    bd'.file_entries.head? = some ⟨false, "..", true⟩ ∧
    ∃ dirs files,
      get_archive_listdir run cwd bd.archive_paths bd.current_subpath =
        some (dirs, files) ∧
      bd'.file_entries = ⟨false, "..", true⟩ ::
        ((dirs.map fun d => (⟨false, d, true⟩ : FileEntry)) ++
          ((files.filter fun f =>
              endswith f bd.file_extension || bd.file_extension = "*").map
            fun f => (⟨false, f, false⟩ : FileEntry))) := by
  have hreb : rebuild_browser run cwd bd = some bd' := by
    unfold update_active_entry at h
    rcases htrig with hcond | ⟨e, he, hcond, hdirF, hname⟩
    · rwa [if_neg hcond] at h
    · rw [if_pos hcond, he] at h
      simp only [hdirF, Bool.false_eq_true, if_false] at h
      rwa [if_neg (by simp [hname])] at h
  obtain ⟨dirs, files, heq, hfe⟩ := rebuild_browser_spec run cwd bd bd' hreb
  unfold rebuild_file_entries at hfe
  exact ⟨by rw [hfe]; simp, by rw [hfe]; rfl, dirs, files, heq, hfe⟩

/-- Witness for C9 at a concrete state: with no valid selection, the list
is rebuilt from a listing with one directory and two files of which one
matches the `.pmg` extension. -/
theorem update_active_entry_rebuild_shape_witness :
    ([⟨false, "..", true⟩, ⟨false, "veh", true⟩, ⟨false, "a.pmg", false⟩] :
        List FileEntry) ≠ [] ∧
    ([⟨false, "..", true⟩, ⟨false, "veh", true⟩, ⟨false, "a.pmg", false⟩] :
        List FileEntry).head? = some ⟨false, "..", true⟩ ∧
    ∃ dirs files,
      get_archive_listdir (fun _ => ⟨0, "[D] /veh\n[F] /a.pmg\n[F] /b.txt"⟩)
        "/cwd" [] "/" = some (dirs, files) ∧
      ([⟨false, "..", true⟩, ⟨false, "veh", true⟩, ⟨false, "a.pmg", false⟩] :
          List FileEntry) = ⟨false, "..", true⟩ ::
        ((dirs.map fun d => (⟨false, d, true⟩ : FileEntry)) ++
          ((files.filter fun f =>
              endswith f ".pmg" || (".pmg" : String) = "*").map
            fun f => (⟨false, f, false⟩ : FileEntry))) :=
  update_active_entry_rebuild_shape
    (fun _ => ⟨0, "[D] /veh\n[F] /a.pmg\n[F] /b.txt"⟩) "/cwd"
    { file_extension := ".pmg" }
    { file_extension := ".pmg",
      file_entries := [⟨false, "..", true⟩, ⟨false, "veh", true⟩,
        ⟨false, "a.pmg", false⟩] }
    (Or.inl (by decide)) (by decide)

/-! ### The import operator -/

/-- Operator return statuses used by the modelled operators. -/
inductive OpStatus where
  | CANCELLED
  | FINISHED
  deriving DecidableEq, Repr

/-- Observable outcome of `CONV_PIX_WRAPPER_OT_ListImport.execute`: the
returned status, the reported messages in order, the file moves performed
by the distribution loop as `(source, destination)` pairs, and the
`(pim file name, directory)` passed to the external importer when it is
invoked. -/
structure ExecuteOutcome where
  status : OpStatus
  reports : List String
  moves : List (String × String)
  imported : Option (String × String)
  deriving DecidableEq, Repr

/-- Operator state of `CONV_PIX_WRAPPER_OT_ListImport` (lines 320-364)
relevant to `execute`. -/
structure ListImportState where
  archive_paths : List String := []
  only_convert : Bool := false
  textures_to_base : Bool := false
  import_animations : Bool := false
  model_browser_data : BrowserData := {}
  anim_browser_data : BrowserData := {}
  deriving DecidableEq, Repr

/-- Python collection indexing `l[i]` with negative indices counting from
the end; `none` models `IndexError`. -/
def pyIndex (l : List FileEntry) (i : Int) : Option FileEntry :=
  let j := if i < 0 then (l.length : Int) + i else i
  if 0 ≤ j then l.get? j.toNat else none

/-- Models & textures project paths (lines 448-451): both are the SCS
project path, except that with `textures_to_base` the textures path is the
sibling `base` directory (`os.path.join(models_path, os.pardir, "base")`).
Returns `(models_project_path, textures_project_path)`. -/
def project_paths (scs_project_path : String) (textures_to_base : Bool) :
    String × String :=
  (scs_project_path,
    if textures_to_base then join2 (join2 scs_project_path "..") "base"
    else scs_project_path)

/-- The distribution loop (lines 454-466) over the `os.walk(export_path,
topdown=False)` result, modelled as the list of `(root, files in root)`
pairs: each file whose name ends with `.tobj`, `.dds` or `.png` is moved
under the textures path, every other file under the models path, both
relative to its subdirectory `os.path.relpath(root, export_path)`.  (The
`os.makedirs` and trailing `os.rmdir` cleanup have no file-move
observables.) -/
def distribute_moves (cwd export_path models_project_path
    textures_project_path : String) (walk : List (String × List String)) :
    List (String × String) :=
  walk.foldl
    (fun moves rootFiles =>
      moves ++ rootFiles.2.map (fun file =>
        (join2 rootFiles.1 file,
          join2
            (if endswith file ".tobj" || endswith file ".dds" ||
                endswith file ".png" then
              join2 textures_project_path (relpathCore cwd rootFiles.1 export_path)
            else
              join2 models_project_path (relpathCore cwd rootFiles.1 export_path))
            file)))
    []

/-- The conversion argument list `execute` builds for the model entry
(lines 409-431): model subpath from the model browser, selected animation
subpaths (each with its 4-character extension stripped) when animations
are enabled, export to the temporary directory. -/
def execute_args (export_path : String) (st : ListImportState)
    (model_file_entry : FileEntry) : List String :=
  conversion_args st.archive_paths
    (path_join st.model_browser_data.current_subpath model_file_entry.name)
    (if st.import_animations then
      (st.anim_browser_data.file_entries.filter (fun e => e.do_import)).map
        (fun e => path_join st.anim_browser_data.current_subpath
          (strDropLast e.name 4))
    else [])
    export_path

/-- Embeds `CONV_PIX_WRAPPER_OT_ListImport.execute` (lines 399-479).
`run` is the subprocess oracle, `scs_project_path` the SCS globals
project path, `export_path` the `mkdtemp()` result and `walk` the
`os.walk` listing of the export directory after conversion. -/
def execute (run : List String → SubprocResult)
    (cwd scs_project_path export_path : String)
    (walk : List (String × List String)) (st : ListImportState) :
    Option ExecuteOutcome :=
  if st.model_browser_data.active_entry = -1 then
    some ⟨.CANCELLED, ["No active model selected, aborting import!"], [], none⟩
  else
    match pyIndex st.model_browser_data.file_entries
        st.model_browser_data.active_entry with
    | none => none
    | some model_file_entry =>
      let res := run_converter_pix
        (run (execute_args export_path st model_file_entry))
      if res.1 ≠ 0 then
        some ⟨.CANCELLED,
          "ConverterPIX crashed or encountered error! Standard output returned:" ::
            res.2.filter (fun line => line ≠ ""),
          [], none⟩
      else
        some ⟨.FINISHED, [],
          distribute_moves cwd export_path
            (project_paths scs_project_path st.textures_to_base).1
            (project_paths scs_project_path st.textures_to_base).2 walk,
          if st.only_convert then none
          else some (strDropLast model_file_entry.name 4 ++ ".pim",
            abspath cwd (path_join scs_project_path
              (strDrop st.model_browser_data.current_subpath 1)))⟩

/-- C1 counterexample: when the subprocess return code is non-zero,
`run_converter_pix` returns the empty line list even though the stdout was
non-empty, so the stdout lines are not returned for surfacing. -/
theorem run_converter_pix_nonzero_drops_stdout :
    run_converter_pix ⟨1, "some converter output"⟩ = (1, []) ∧
    pySplit LINE_SPLITTER "some converter output" = ["some converter output"] := by
  decide

/-- C1 (amended): when the conversion subprocess fails (non-zero return
code or `<error>` in its stdout), `run_converter_pix` returns a non-zero
code and `execute` aborts with CANCELLED, performing no file moves and no
import, reporting the error message followed by the non-empty lines
`run_converter_pix` returned — which are the stdout lines in the
`<error>` case and nothing in the non-zero-return-code case. -/
theorem execute_aborts_on_converter_failure
    (run : List String → SubprocResult)
    (cwd scs_project_path export_path : String)
    (walk : List (String × List String)) (st : ListImportState)
    (hactive : st.model_browser_data.active_entry ≠ -1)
    (e : FileEntry)
    (he : pyIndex st.model_browser_data.file_entries
      st.model_browser_data.active_entry = some e)
    (hfail : (run (execute_args export_path st e)).returncode ≠ 0 ∨
      containsSub (run (execute_args export_path st e)).stdout "<error>" = true) :
    (run_converter_pix (run (execute_args export_path st e))).1 ≠ 0 ∧
    execute run cwd scs_project_path export_path walk st = some
      ⟨.CANCELLED,
        "ConverterPIX crashed or encountered error! Standard output returned:" ::
          (run_converter_pix (run (execute_args export_path st e))).2.filter
            (fun line => line ≠ ""),
        [], none⟩ := by
  have hret : (run_converter_pix (run (execute_args export_path st e))).1 ≠ 0 :=
    (run_converter_pix_fails_iff (run (execute_args export_path st e))).1.mpr hfail
  refine ⟨hret, ?_⟩
  unfold execute
  rw [if_neg hactive, he]
  simp only [if_pos hret]

/-- Witness for C1 (amended) at a concrete failing conversion. -/
theorem execute_aborts_on_converter_failure_witness :
    (run_converter_pix
      ((fun _ => (⟨0, "x<error>y"⟩ : SubprocResult))
        (execute_args "/tmp/e"
          { model_browser_data :=
              { file_entries := [⟨false, "m.pmg", false⟩], active_entry := 0 } }
          ⟨false, "m.pmg", false⟩))).1 ≠ 0 ∧
    execute (fun _ => ⟨0, "x<error>y"⟩) "/cwd" "/proj" "/tmp/e" []
      { model_browser_data :=
          { file_entries := [⟨false, "m.pmg", false⟩], active_entry := 0 } } =
      some ⟨.CANCELLED,
        "ConverterPIX crashed or encountered error! Standard output returned:" ::
          (run_converter_pix
            ((fun _ => (⟨0, "x<error>y"⟩ : SubprocResult))
              (execute_args "/tmp/e"
                { model_browser_data :=
                    { file_entries := [⟨false, "m.pmg", false⟩],
                      active_entry := 0 } }
                ⟨false, "m.pmg", false⟩))).2.filter (fun line => line ≠ ""),
        [], none⟩ :=
  execute_aborts_on_converter_failure (fun _ => ⟨0, "x<error>y"⟩)
    "/cwd" "/proj" "/tmp/e" []
    { model_browser_data :=
        { file_entries := [⟨false, "m.pmg", false⟩], active_entry := 0 } }
    (by decide) ⟨false, "m.pmg", false⟩ (by decide) (Or.inr (by decide))

theorem foldl_append_map_eq {α β : Type} (f : α → List β) (w : List α)
    (init : List β) :
    w.foldl (fun acc x => acc ++ f x) init = init ++ (w.map f).flatten := by
  induction w generalizing init with
  | nil => simp
  | cons a t ih => simp [List.foldl_cons, ih, List.append_assoc]

theorem distribute_moves_eq (cwd export_path mp tp : String)
    (walk : List (String × List String)) :
    distribute_moves cwd export_path mp tp walk =
      (walk.map (fun rootFiles =>
        rootFiles.2.map (fun file =>
          (join2 rootFiles.1 file,
            join2
              (if endswith file ".tobj" || endswith file ".dds" ||
                  endswith file ".png" then
                join2 tp (relpathCore cwd rootFiles.1 export_path)
              else
                join2 mp (relpathCore cwd rootFiles.1 export_path))
              file)))).flatten := by
  unfold distribute_moves
  rw [foldl_append_map_eq
    (fun rootFiles => rootFiles.2.map (fun file =>
      (join2 rootFiles.1 file,
        join2
          (if endswith file ".tobj" || endswith file ".dds" ||
              endswith file ".png" then
            join2 tp (relpathCore cwd rootFiles.1 export_path)
          else
            join2 mp (relpathCore cwd rootFiles.1 export_path))
          file)))
    walk [], List.nil_append]

/-- C5: after a successful conversion, every file under the export
directory ending with `.tobj`, `.dds` or `.png` is moved into the textures
project path and every other file into the models project path, each under
its subdirectory relative to the export directory; the two paths are both
the SCS project path unless `textures_to_base` routes textures to the
sibling `base` directory. -/
theorem execute_distributes_by_extension
    (run : List String → SubprocResult)
    (cwd scs_project_path export_path : String)
    (walk : List (String × List String)) (st : ListImportState)
    (hactive : st.model_browser_data.active_entry ≠ -1)
    (e : FileEntry)
    (he : pyIndex st.model_browser_data.file_entries
      st.model_browser_data.active_entry = some e)
    (hok : (run_converter_pix (run (execute_args export_path st e))).1 = 0) :
    ∃ out, execute run cwd scs_project_path export_path walk st = some out ∧
      out.status = .FINISHED ∧
      (∀ root files file, (root, files) ∈ walk → file ∈ files →
        (endswith file ".tobj" || endswith file ".dds" ||
          endswith file ".png") = true →
        (join2 root file,
          join2 (join2 (project_paths scs_project_path st.textures_to_base).2
            (relpathCore cwd root export_path)) file) ∈ out.moves) ∧
      (∀ root files file, (root, files) ∈ walk → file ∈ files →
        (endswith file ".tobj" || endswith file ".dds" ||
          endswith file ".png") = false →
        (join2 root file,
          join2 (join2 scs_project_path
            (relpathCore cwd root export_path)) file) ∈ out.moves) ∧
      (st.textures_to_base = false →
        (project_paths scs_project_path st.textures_to_base).2 =
          scs_project_path) ∧
      (st.textures_to_base = true →
        (project_paths scs_project_path st.textures_to_base).2 =
          join2 (join2 scs_project_path "..") "base") := by
  have hex : execute run cwd scs_project_path export_path walk st = some
      ⟨.FINISHED, [],
        distribute_moves cwd export_path
          (project_paths scs_project_path st.textures_to_base).1
          (project_paths scs_project_path st.textures_to_base).2 walk,
        if st.only_convert then none
        else some (strDropLast e.name 4 ++ ".pim",
          abspath cwd (path_join scs_project_path
            (strDrop st.model_browser_data.current_subpath 1)))⟩ := by
    unfold execute
    rw [if_neg hactive, he]
    dsimp only
    rw [if_neg (show ¬ (run_converter_pix
        (run (execute_args export_path st e))).1 ≠ 0 from fun hne => hne hok)]
  refine ⟨_, hex, rfl, ?_, ?_, ?_, ?_⟩
  · intro root files file hw hf hext
    show _ ∈ distribute_moves cwd export_path
      (project_paths scs_project_path st.textures_to_base).1
      (project_paths scs_project_path st.textures_to_base).2 walk
    rw [distribute_moves_eq, List.mem_flatten]
    refine ⟨_, List.mem_map.mpr ⟨(root, files), hw, rfl⟩, ?_⟩
    exact List.mem_map.mpr ⟨file, hf, by simp [hext]⟩
  · intro root files file hw hf hext
    show _ ∈ distribute_moves cwd export_path
      (project_paths scs_project_path st.textures_to_base).1
      (project_paths scs_project_path st.textures_to_base).2 walk
    rw [distribute_moves_eq, List.mem_flatten]
    refine ⟨_, List.mem_map.mpr ⟨(root, files), hw, rfl⟩, ?_⟩
    exact List.mem_map.mpr ⟨file, hf, by simp [hext, project_paths]⟩
  · intro hb; simp [project_paths, hb]
  · intro hb; simp [project_paths, hb]

/-- Witness for C5 at a concrete successful conversion with one walked
directory containing a model file and a texture file. -/
theorem execute_distributes_by_extension_witness :
    ∃ out, execute (fun _ => ⟨0, "ok"⟩) "/cwd" "/proj" "/tmp/e"
        [("/tmp/e/veh", ["m.pim", "t.dds"])]
        { model_browser_data :=
            { file_entries := [⟨false, "m.pmg", false⟩], active_entry := 0 } } =
        some out ∧
      out.status = .FINISHED ∧
      (∀ root files file,
        (root, files) ∈ [("/tmp/e/veh", ["m.pim", "t.dds"])] → file ∈ files →
        (endswith file ".tobj" || endswith file ".dds" ||
          endswith file ".png") = true →
        (join2 root file,
          join2 (join2 (project_paths "/proj" false).2
            (relpathCore "/cwd" root "/tmp/e")) file) ∈ out.moves) ∧
      (∀ root files file,
        (root, files) ∈ [("/tmp/e/veh", ["m.pim", "t.dds"])] → file ∈ files →
        (endswith file ".tobj" || endswith file ".dds" ||
          endswith file ".png") = false →
        (join2 root file,
          join2 (join2 "/proj" (relpathCore "/cwd" root "/tmp/e")) file) ∈
            out.moves) ∧
      (false = false → (project_paths "/proj" false).2 = "/proj") ∧
      (false = true →
        (project_paths "/proj" false).2 = join2 (join2 "/proj" "..") "base") :=
  execute_distributes_by_extension (fun _ => ⟨0, "ok"⟩) "/cwd" "/proj" "/tmp/e"
    [("/tmp/e/veh", ["m.pim", "t.dds"])]
    { model_browser_data :=
        { file_entries := [⟨false, "m.pmg", false⟩], active_entry := 0 } }
    (by decide) ⟨false, "m.pmg", false⟩ (by decide) (by decide)

/-- Witness for C8 at a concrete listing printed out of order. -/
theorem get_archive_listdir_sorted_witness :
    List.Sorted pyle ["a", "b"] ∧ List.Sorted pyle ["m.pmg"] :=
  get_archive_listdir_sorted (fun _ => ⟨0, "[D] /b\n[D] /a\n[F] /m.pmg"⟩)
    "/cwd" ["x.scs"] "/" ["a", "b"] ["m.pmg"] (by decide)

/-! ### Executable update and registration -/

/-- The re-download condition evaluated by `register` (lines 826-831):
the background update thread is started exactly when the executable file
is missing at its cache path or `time() - os.path.getmtime(path)` exceeds
`60 * 60 * 24` seconds.  Timestamps are modelled as rational second
counts. -/
def register_starts_update (isfile : Bool) (now mtime : ℚ) : Bool :=
  !isfile || decide (now - mtime > 60 * 60 * 24)

/-- C6: registration starts the background re-download iff the executable
does not exist or its modification time is more than 24 hours in the
past. -/
theorem register_starts_update_iff (isfile : Bool) (now mtime : ℚ) :
    register_starts_update isfile now mtime = true ↔
      (isfile = false ∨ now - mtime > 60 * 60 * 24) := by
  unfold register_starts_update
  cases isfile <;> simp

/-- Witness for C6: a missing executable starts the download. -/
theorem register_starts_update_iff_witness :
    register_starts_update false 0 0 = true :=
  (register_starts_update_iff false 0 0).mpr (Or.inl rfl)

/-- `update_converter_pix` (lines 52-89) with the download-and-write IO of
its try block modelled by its outcome: `Except.error` when any exception
was raised inside the block (the source catches every `Exception`, prints
the traceback and returns False), `Except.ok` when the download, file
write and chmod completed (the source then returns True). -/
def update_converter_pix (io : Except String Unit) : Bool :=
  match io with
  | .ok _ => true
  | .error _ => false

/-- `CONV_PIX_WRAPPER_OT_UpdateEXE.execute` (lines 793-800): a single call
to `update_converter_pix`, one report — the success message on True, the
generic failure message on False — and FINISHED either way. -/
def updateEXE_execute (io : Except String Unit) : List String × OpStatus :=
  if update_converter_pix io then
    (["ConverterPIX file updated!"], .FINISHED)
  else
    (["Problem updating ConverterPIX! Try again later."], .FINISHED)

/-- C7: `update_converter_pix` returns False exactly when the download or
write raised (the exception is caught, not propagated); the update
operator reports the generic failure message exactly when it returned
False, makes exactly one report (no retry), and finishes either way. -/
theorem update_failure_reported_iff (io : Except String Unit) :
    (update_converter_pix io = false ↔ ∃ e, io = .error e) ∧
    ((updateEXE_execute io).1 =
        ["Problem updating ConverterPIX! Try again later."] ↔
      update_converter_pix io = false) ∧
    (updateEXE_execute io).1.length = 1 ∧
    (updateEXE_execute io).2 = .FINISHED := by
  cases io <;> simp [update_converter_pix, updateEXE_execute]

/-- Witness for C7: a raised exception yields the generic failure
report. -/
theorem update_failure_reported_iff_witness :
    (updateEXE_execute (Except.error "boom")).1 =
      ["Problem updating ConverterPIX! Try again later."] :=
  ((update_failure_reported_iff (Except.error "boom")).2.1).mpr
    ((update_failure_reported_iff (Except.error "boom")).1.mpr ⟨"boom", rfl⟩)

end ConvPIXWrapper
